import Mathlib

/-!
Verification of the image-resize edge handler (`src/index.ts`).

The repository contains two handler variants in one file: a plain function
handler (modelled in namespace `V1`) and the class `ImageResizeEdge`
(modelled in namespace `ImageResizeEdge`).  Pure request-processing logic
(parameter parsing, extension whitelisting, key sanitisation, the PNG
compression-level formula, size ceilings, error-status mapping) is
translated directly from the source.  The external collaborators — the S3
client and the sharp image codec — are out of scope per the specification
and are modelled as oracles inside a `World` structure: `getObject` maps a
key to either a structured error (carrying the optional HTTP status code of
the AWS SDK error metadata) or an object, `metaFormat` is the format string
sharp detects for a byte buffer, and `encode` is the resize/re-encode
pipeline producing output bytes or a thrown error message.
-/

set_option autoImplicit false

namespace ImageResize

/-- Whitespace accepted and skipped by the JavaScript `parseInt` before the
number (the WhiteSpace and LineTerminator productions; the common ASCII
ones plus NBSP are modelled). -/
def isJsWhitespace (c : Char) : Bool :=
  c == ' ' || c == '\t' || c == '\n' || c == '\r' || c == '\x0b' || c == '\x0c' || c == '\u00A0'

/-- Decimal digit test, the `[0-9]` class used by `parseInt(_, 10)`. -/
def isDigitChar (c : Char) : Bool :=
  c.isDigit

/-- Value of a list of decimal digits, most significant first. -/
def digitsToNat (l : List Char) : Nat :=
  l.foldl (fun acc c => 10 * acc + (c.toNat - '0'.toNat)) 0

/-- JavaScript `parseInt(s, 10)`: skip leading whitespace, an optional sign,
then the longest prefix of decimal digits; `none` models `NaN` (no digit
found). -/
def parseIntBase10 (s : String) : Option Int :=
  let l := s.toList.dropWhile isJsWhitespace
  let signAndRest : Int × List Char :=
    match l with
    | '-' :: r => (-1, r)
    | '+' :: r => (1, r)
    | _ => (1, l)
  let ds := signAndRest.2.takeWhile isDigitChar
  if ds.isEmpty then none
  else some (signAndRest.1 * (digitsToNat ds : Int))

/-- `toInt` from the source (identical in both variants):
`if (!v) return undefined; const n = parseInt(v, 10);
if (Number.isNaN(n)) return undefined; return Math.min(Math.max(n, min), max)`.
The source defaults are `lo = 1`, `hi = 8192` (`1`, `100` for quality);
call sites pass them explicitly here. -/
def toInt (value : Option String) (lo hi : Int) : Option Int :=
  match value with
  | none => none
  | some s =>
    if s = "" then none
    else
      match parseIntBase10 s with
      | none => none
      | some n => some (min (max n lo) hi)

/-- The `ImageExtension` / `AllowedFmt` union type of the source. -/
inductive ImageExtension where
  | png
  | jpg
  | jpeg
  | webp
  | gif
  deriving DecidableEq, BEq, Repr

/-- `ALLOWED_EXTENSIONS` / `ALLOWED_FMTS` from the source. -/
def ALLOWED_EXTENSIONS : List ImageExtension :=
  [.png, .jpg, .jpeg, .webp, .gif]

/-- The string carried by each member of the union type in the source. -/
def extToString : ImageExtension → String
  | .png => "png"
  | .jpg => "jpg"
  | .jpeg => "jpeg"
  | .webp => "webp"
  | .gif => "gif"

/-- The `ALLOWED_EXTENSIONS.includes(raw)` membership test plus cast of the
source, on the lower-cased extension token. -/
def strToExt : String → Option ImageExtension
  | "png" => some .png
  | "jpg" => some .jpg
  | "jpeg" => some .jpeg
  | "webp" => some .webp
  | "gif" => some .gif
  | _ => none

/-- `extensionFromUri`: the regex `\.([a-zA-Z0-9]+)$` — a final dot followed
by a non-empty alphanumeric run reaching the end of the URI — lower-cased
and checked against the whitelist.  Both variants compute exactly this. -/
def extensionFromUri (uri : String) : Option ImageExtension :=
  let rev := uri.toList.reverse
  let tok := rev.takeWhile Char.isAlphanum
  match rev.dropWhile Char.isAlphanum with
  | '.' :: _ =>
    if tok.isEmpty then none
    else strToExt (String.mk (tok.reverse.map Char.toLower))
  | _ => none

/-- `contentTypeByExt` of the enhanced variant (total on the union type; the
plain variant adds an unreachable `application/octet-stream` default). -/
def contentTypeByExt : ImageExtension → String
  | .jpg => "image/jpeg"
  | .jpeg => "image/jpeg"
  | .png => "image/png"
  | .webp => "image/webp"
  | .gif => "image/gif"

/-- JavaScript `Math.round (num / den)` for a positive denominator:
round half toward positive infinity, i.e. `⌊num/den + 1/2⌋`. -/
def jsRound (num den : Int) : Int :=
  (2 * num + den).fdiv (2 * den)

/-- `pngCompressionLevel` from the source (the plain variant inlines the
same expression):
`typeof quality === 'number' ? Math.max(0, Math.min(9, Math.round((100 - quality) / 11))) : 6`. -/
def pngCompressionLevel (quality : Option Int) : Int :=
  match quality with
  | none => 6
  | some q => max 0 (min 9 (jsRound (100 - q) 11))

/-- JavaScript truthiness of an optional number: `undefined` and `0` are
falsy, every other number is truthy. -/
def truthyInt : Option Int → Bool
  | none => false
  | some n => n != 0

/-- The quality option actually passed to the encoder by
`p.quality ? encoder({ quality }) : encoder()`. -/
def truthyOpt : Option Int → Option Int
  | none => none
  | some n => if n = 0 then none else some n

/-- The CloudFront request: URI plus the query string.  The query string is
modelled after `URLSearchParams` parsing, as the ordered list of decoded
key-value pairs; `queryGet` below is `URLSearchParams.get` (first match). -/
structure CFRequest where
  uri : String
  query : List (String × String)
  deriving DecidableEq, Repr

/-- `URLSearchParams.get`: the value of the first pair with the given key,
or null. -/
def queryGet (q : List (String × String)) (k : String) : Option String :=
  (q.find? (fun p => p.1 == k)).map (fun p => p.2)

/-- The body of a response envelope: a plain-text message, or image bytes
(serialised as base64 with `bodyEncoding: base64` on the wire; the model
keeps the bytes). -/
inductive CFBody where
  | text (s : String)
  | base64 (bytes : List Nat)
  deriving DecidableEq, Repr

/-- A handler result: either the original request forwarded unchanged
(`passThrough` returns the request object itself) or an HTTP-shaped
response `{status, statusDescription, headers, body}`. -/
inductive CFResponse where
  | passthrough (req : CFRequest)
  | http (status : String) (statusDescription : String)
      (headers : List (String × String)) (body : CFBody)
  deriving DecidableEq, Repr

/-- Status of a response; a forwarded request has none. -/
def CFResponse.statusOf : CFResponse → Option String
  | .passthrough _ => none
  | .http s _ _ _ => some s

/-- Header list of a response; a forwarded request has none. -/
def CFResponse.headersOf : CFResponse → List (String × String)
  | .passthrough _ => []
  | .http _ _ h _ => h

/-- Image bytes of a response body, when it carries any. -/
def CFResponse.bodyBytesOf : CFResponse → Option (List Nat)
  | .http _ _ _ (.base64 b) => some b
  | _ => none

/-- Structured error raised by the S3 client: `e.$metadata.httpStatusCode`
when present. -/
structure S3Error where
  httpStatusCode : Option Nat
  deriving DecidableEq, Repr

/-- `GetObjectCommandOutput` at the interface boundary: the optional body
stream (already buffered to bytes) and `ContentLength` when it is a
number. -/
structure S3Object where
  body : Option (List Nat)
  contentLength : Option Int
  deriving DecidableEq, Repr

/-- The options object passed to `sharp.resize` by both variants. -/
structure ResizeOpts where
  width : Option Int
  height : Option Int
  fit : String
  withoutEnlargement : Bool
  deriving DecidableEq, Repr

/-- The encoder selected by the `switch (extension)` and the options passed
to it. -/
inductive EncodeOpts where
  | jpegEnc (quality : Option Int)
  | pngEnc (compressionLevel : Int)
  | webpEnc (quality : Option Int)
  | gifEnc
  deriving DecidableEq, Repr

/-- Oracles for the two external collaborators of one request: the S3
client and the sharp pipeline.  `encode` receives the input bytes, the
`animated` decode flag, the `limitInputPixels` option (set only by the
enhanced variant), the resize options when a resize is requested, and the
selected encoder; it returns the output bytes or the message of a thrown
error. -/
structure World where
  getObject : String → Except S3Error S3Object
  metaFormat : List Nat → String
  encode : List Nat → Bool → Option Nat → Option ResizeOpts → Option EncodeOpts → Except String (List Nat)

/-- A handler run: the produced response plus whether the S3 fetch and the
sharp transform were reached. -/
structure HandleTrace where
  response : CFResponse
  fetched : Bool
  transformed : Bool
  deriving DecidableEq, Repr

/-- `key.startsWith('/') ? key.slice(1) : key` at character level. -/
def stripLeadingSlash : List Char → List Char
  | '/' :: rest => rest
  | l => l

/-- Whether characters `a` and `b` occur adjacently (in this order) in the
list: exactly the two-character substring test `key.includes(ab)`. -/
def hasPair (a b : Char) : List Char → Bool
  | [] => false
  | [_] => false
  | x :: y :: rest => (x == a && y == b) || hasPair a b (y :: rest)

/-- Core of `key.replace(/\/{2,}/g, '/')`: rebuild the list left to right,
where `prevSlash` records whether the previously emitted character was a
slash; a slash is dropped exactly when it directly follows another one, so
every maximal slash run keeps exactly its first slash. -/
def collapseAux : Bool → List Char → List Char
  | _, [] => []
  | prevSlash, c :: rest =>
    if c == '/' then
      if prevSlash then collapseAux true rest
      else '/' :: collapseAux true rest
    else c :: collapseAux false rest

/-- `key.replace(/\/{2,}/g, '/')`: every maximal run of slashes becomes a
single slash (runs of length one are already single). -/
def collapseSlashes (l : List Char) : List Char :=
  collapseAux false l

/-- Hexadecimal digit value for percent-escapes. -/
def hexVal (c : Char) : Option Nat :=
  if c.isDigit then some (c.toNat - '0'.toNat)
  else if 'a' ≤ c ∧ c ≤ 'f' then some (c.toNat - 'a'.toNat + 10)
  else if 'A' ≤ c ∧ c ≤ 'F' then some (c.toNat - 'A'.toNat + 10)
  else none

/-- Percent-decoding of a character list; `none` models the `URIError`
thrown by `decodeURIComponent` on a malformed escape.  Only escapes of
ASCII code points are modelled; multi-byte UTF-8 escape sequences are
treated as a decoding failure. -/
def percentDecodeList : List Char → Option (List Char)
  | [] => some []
  | '%' :: a :: b :: rest =>
    match hexVal a, hexVal b with
    | some ha, some hb =>
      let n := 16 * ha + hb
      if n < 128 then (percentDecodeList rest).map (fun r => Char.ofNat n :: r)
      else none
    | _, _ => none
  | '%' :: _ => none
  | c :: rest => (percentDecodeList rest).map (fun r => c :: r)

/-- `decodeURIComponent`; `none` models a thrown `URIError`. -/
def decodeURIComponent (s : String) : Option String :=
  (percentDecodeList s.toList).map String.mk

/-- The sanitisation steps of `keyFromUri` applied to the already decoded
URI: strip one leading slash, reject on a `..` substring, collapse slash
runs, reject the empty key. -/
def sanitizeDecodedKey (decoded : String) : Option String :=
  let key := stripLeadingSlash decoded.toList
  if hasPair '.' '.' key then none
  else
    let collapsed := collapseSlashes key
    if collapsed.isEmpty then none else some (String.mk collapsed)

/-- `ParsedParams` of the enhanced variant (the plain variant keeps the
same four values in local bindings). -/
structure ParsedParams where
  width : Option Int
  height : Option Int
  quality : Option Int
  extension : Option ImageExtension
  deriving DecidableEq, Repr

namespace ImageResizeEdge

/-- `parseParams` of the enhanced variant. -/
def parseParams (req : CFRequest) : ParsedParams :=
  { width := toInt (queryGet req.query "w") 1 8192
    height := toInt (queryGet req.query "h") 1 8192
    quality := toInt (queryGet req.query "q") 1 100
    extension := extensionFromUri req.uri }

/-- `shouldProcess`:
`if (!params.extension || !ALLOWED_EXTENSIONS.includes(params.extension)) return false;
return Boolean(params.width || params.height || params.quality)`. -/
def shouldProcess (params : ParsedParams) : Bool :=
  match params.extension with
  | none => false
  | some ext =>
    if ALLOWED_EXTENSIONS.contains ext then
      truthyInt params.width || truthyInt params.height || truthyInt params.quality
    else false

/-- `keyFromUri`: percent-decode the URI, then sanitise.  The outer `none`
models the `URIError` thrown by `decodeURIComponent` (the call sits outside
the try/catch of `handle`); the inner `none` is the null returned for a
traversal or empty key. -/
def keyFromUri (uri : String) : Option (Option String) :=
  (decodeURIComponent uri).map sanitizeDecodedKey

/-- The resize step: applied only when `p.width || p.height` is truthy, with
`fit: inside` and `withoutEnlargement: true`. -/
def resizeOpts (p : ParsedParams) : Option ResizeOpts :=
  if truthyInt p.width || truthyInt p.height then
    some { width := p.width, height := p.height, fit := "inside", withoutEnlargement := true }
  else none

/-- The `switch (p.extension)` selecting the encoder and its options.  A
missing extension falls through the switch leaving the stream unchanged;
`transform` is only reached with a whitelisted extension. -/
def encodeOpts (p : ParsedParams) : Option EncodeOpts :=
  match p.extension with
  | some .jpg => some (.jpegEnc (truthyOpt p.quality))
  | some .jpeg => some (.jpegEnc (truthyOpt p.quality))
  | some .png => some (.pngEnc (pngCompressionLevel p.quality))
  | some .webp => some (.webpEnc (truthyOpt p.quality))
  | some .gif => some .gifEnc
  | none => none

/-- Whether the detected format string equals the requested extension:
`meta.format !== p.extension` is a strict string comparison (an absent
extension never equals a format string). -/
def extMatches (format : String) (ext : Option ImageExtension) : Bool :=
  match ext with
  | some e => format == extToString e
  | none => false

/-- `transform` of the enhanced variant: decode (with `animated` only for
gif and `limitInputPixels: 100_000_000`), compare the detected format with
the requested extension and throw the error message Mismatched image format on any
difference, then resize/re-encode through the sharp oracle. -/
def transform (w : World) (input : List Nat) (p : ParsedParams) : Except String (List Nat) :=
  if extMatches (w.metaFormat input) p.extension then
    w.encode input (p.extension == some .gif) (some 100000000) (resizeOpts p) (encodeOpts p)
  else Except.error "Mismatched image format"

/-- `maxAge = 30 * 24 * 60 * 60` (30 days, computed). -/
def maxAge : Nat := 30 * 24 * 60 * 60

/-- `headers(contentType?)` of the enhanced variant: cache-control and vary
always, content-type appended when given. -/
def headers (contentType : Option String) : List (String × String) :=
  let base := [("cache-control", "public, max-age=" ++ toString maxAge ++ ", immutable"),
               ("vary", "Accept,Accept-Encoding")]
  match contentType with
  | some ct => base ++ [("content-type", ct)]
  | none => base

/-- `ok(body, contentType)`. -/
def ok (body : List Nat) (contentType : String) : CFResponse :=
  .http "200" "OK" (headers (some contentType)) (.base64 body)

/-- `badRequest(msg)`. -/
def badRequest (msg : String) : CFResponse :=
  .http "400" "Bad Request" (headers (some "text/plain; charset=utf-8")) (.text msg)

/-- `notFound(msg)`. -/
def notFound (msg : String) : CFResponse :=
  .http "404" "Not Found" (headers (some "text/plain; charset=utf-8")) (.text msg)

/-- `payloadTooLarge(msg)`. -/
def payloadTooLarge (msg : String) : CFResponse :=
  .http "413" "Payload Too Large" (headers (some "text/plain; charset=utf-8")) (.text msg)

/-- `serverError(msg)`. -/
def serverError (msg : String) : CFResponse :=
  .http "500" "Server Error" (headers (some "text/plain; charset=utf-8")) (.text msg)

/-- `typeof s3object.ContentLength === 'number' && s3object.ContentLength > 50_000_000`. -/
def contentLengthTooBig (obj : S3Object) : Bool :=
  match obj.contentLength with
  | some n => n > 50000000
  | none => false

/-- `MAX_BYTES = 1_000_000`. -/
def MAX_BYTES : Nat := 1000000

/-- `handle` of the enhanced variant, stage by stage in source order:
passthrough gate, key sanitisation (outside the try/catch, so a decoding
exception escapes the handler: overall `none`), fetch, missing-body check,
content-length ceiling, transform, output ceiling, success; the catch maps
an error whose metadata carries status 404 to the not-found response and
everything else to the generic server error. -/
def handle (w : World) (req : CFRequest) : Option HandleTrace :=
  if shouldProcess (parseParams req) then
    match keyFromUri req.uri with
    | none => none
    | some none => some ⟨badRequest "Invalid path.", false, false⟩
    | some (some key) =>
      match w.getObject key with
      | Except.error e =>
        if e.httpStatusCode = some 404 then
          some ⟨notFound "Original image not found", true, false⟩
        else some ⟨serverError "Image processing failed", true, false⟩
      | Except.ok s3object =>
        match s3object.body with
        | none => some ⟨notFound "Image not found", true, false⟩
        | some buffer =>
          if contentLengthTooBig s3object then
            some ⟨payloadTooLarge "Original image too large.", true, false⟩
          else
            match transform w buffer (parseParams req) with
            | Except.error _ => some ⟨serverError "Image processing failed", true, true⟩
            | Except.ok output =>
              if output.length > MAX_BYTES then
                some ⟨payloadTooLarge "Image exceeds 1MB limit.", true, true⟩
              else
                match (parseParams req).extension with
                | some ext => some ⟨ok output (contentTypeByExt ext), true, true⟩
                | none => none
  else some ⟨.passthrough req, false, false⟩

end ImageResizeEdge

namespace V1

/-- The encoder selection of the plain variant: the same `switch` as the
enhanced one (its inline png expression is `pngCompressionLevel`). -/
def encodeOptsV1 (fileExtension : ImageExtension) (quality : Option Int) : EncodeOpts :=
  match fileExtension with
  | .jpg => .jpegEnc (truthyOpt quality)
  | .jpeg => .jpegEnc (truthyOpt quality)
  | .png => .pngEnc (pngCompressionLevel quality)
  | .webp => .webpEnc (truthyOpt quality)
  | .gif => .gifEnc

/-- The plain exported `handler`: parse `w`, `h`, `q` and the extension;
reject non-whitelisted extensions with a bare 400; otherwise fetch the key
`uri.startsWith('/') ? uri.slice(1) : uri` (no decoding, no sanitising, no
size ceilings) and resize/re-encode without any format-integrity check.
The catch clause maps metadata status 404 to 404 and all else to 500. -/
def handler (w : World) (req : CFRequest) : HandleTrace :=
  match extensionFromUri (if req.uri = "" then "/" else req.uri) with
  | none =>
    ⟨.http "400" "Bad Request" [("content-type", "text/plain; charset=utf-8")]
        (.text "Unsupported or missing image extension."), false, false⟩
  | some fileExtension =>
    match w.getObject
        (String.mk (stripLeadingSlash (if req.uri = "" then "/" else req.uri).toList)) with
    | Except.error e =>
      if e.httpStatusCode = some 404 then
        ⟨.http "404" "Not Found" [("content-type", "text/plain; charset=utf-8")]
            (.text "Original image not found"), true, false⟩
      else
        ⟨.http "500" "Server Error" [("content-type", "text/plain; charset=utf-8")]
            (.text "Image processing failed"), true, false⟩
    | Except.ok s3object =>
      match s3object.body with
      | none =>
        -- `streamToBuffer(undefined)` throws, landing in the same catch
        ⟨.http "500" "Server Error" [("content-type", "text/plain; charset=utf-8")]
            (.text "Image processing failed"), true, false⟩
      | some body =>
        match w.encode body (fileExtension == .gif) none
            (if truthyInt (toInt (queryGet req.query "w") 1 8192) ||
                truthyInt (toInt (queryGet req.query "h") 1 8192) then
              some { width := toInt (queryGet req.query "w") 1 8192
                     height := toInt (queryGet req.query "h") 1 8192
                     fit := "inside", withoutEnlargement := true }
            else none)
            (some (encodeOptsV1 fileExtension (toInt (queryGet req.query "q") 1 100))) with
        | Except.error _ =>
          ⟨.http "500" "Server Error" [("content-type", "text/plain; charset=utf-8")]
              (.text "Image processing failed"), true, true⟩
        | Except.ok outBuffer =>
          ⟨.http "200" "OK"
              [("content-type", contentTypeByExt fileExtension),
               ("cache-control", "public, max-age=" ++ toString ImageResizeEdge.maxAge ++ ", immutable"),
               ("vary", "Accept,Accept-Encoding")]
              (.base64 outBuffer), true, true⟩

end V1

/-- The spec states the PNG level with an explicit range clamp; this
definition follows the spec wording `clamp(round((100 - quality)/11), 0, 9)`
for comparison with the source's `pngCompressionLevel`. -/
def clampInt (x lo hi : Int) : Int :=
  if x < lo then lo else if hi < x then hi else x

/-- The PNG compression level as the spec words it. -/
def pngLevelSpec (quality : Int) : Int :=
  clampInt (jsRound (100 - quality) 11) 0 9

/-- A world whose fetches all fail with a structured 404 error. -/
def worldErr404 : World :=
  { getObject := fun _ => Except.error ⟨some 404⟩
    metaFormat := fun _ => "png"
    encode := fun b _ _ _ _ => Except.ok b }

/-- A world whose fetches all fail with a structured 503 error. -/
def worldErr503 : World :=
  { getObject := fun _ => Except.error ⟨some 503⟩
    metaFormat := fun _ => "png"
    encode := fun b _ _ _ _ => Except.ok b }

/-- A world whose fetches all fail with an error carrying no status code. -/
def worldDummy : World :=
  { getObject := fun _ => Except.error ⟨none⟩
    metaFormat := fun _ => "png"
    encode := fun b _ _ _ _ => Except.ok b }

/-- A world holding a jpeg-encoded original: sharp detects the format
string "jpeg" for its bytes. -/
def worldJpegOriginal : World :=
  { getObject := fun _ => Except.ok { body := some [255, 216], contentLength := some 1000 }
    metaFormat := fun _ => "jpeg"
    encode := fun b _ _ _ _ => Except.ok b }

/-- A world whose object reports a content length of 60,000,000 bytes. -/
def worldBigCL : World :=
  { getObject := fun _ => Except.ok { body := some [0], contentLength := some 60000000 }
    metaFormat := fun _ => "png"
    encode := fun b _ _ _ _ => Except.ok b }

/-- An adjacent pair survives prepending a character. -/
theorem hasPair_cons (a b c : Char) (l : List Char) (h : hasPair a b l = true) :
    hasPair a b (c :: l) = true := by
  cases l with
  | nil => simp [hasPair] at h
  | cons y r => simp [hasPair, h]

/-- After a slash was just emitted, the next emitted character is not a
slash. -/
theorem collapseAux_true_head (l : List Char) (y : Char)
    (h : (collapseAux true l).head? = some y) : (y == '/') = false := by
  induction l with
  | nil => simp [collapseAux] at h
  | cons c rest ih =>
    by_cases hc : (c == '/') = true
    · rw [show collapseAux true (c :: rest) = collapseAux true rest from by
        simp [collapseAux, hc]] at h
      exact ih h
    · rw [show collapseAux true (c :: rest) = c :: collapseAux false rest from by
        simp [collapseAux, hc]] at h
      simp only [List.head?_cons, Option.some.injEq] at h
      subst h
      simpa using hc

/-- Outside a slash run, collapsing keeps the head of the list. -/
theorem collapseAux_false_head? (l : List Char) :
    (collapseAux false l).head? = l.head? := by
  cases l with
  | nil => rfl
  | cons c rest =>
    by_cases hc : (c == '/') = true
    · rw [show collapseAux false (c :: rest) = '/' :: collapseAux true rest from by
        simp [collapseAux, hc]]
      simp only [List.head?_cons, Option.some.injEq]
      exact (eq_of_beq hc).symm
    · rw [show collapseAux false (c :: rest) = c :: collapseAux false rest from by
        simp [collapseAux, hc]]
      simp

/-- After collapsing, no two slashes are adjacent. -/
theorem collapseAux_no_double (l : List Char) :
    ∀ b, hasPair '/' '/' (collapseAux b l) = false := by
  induction l with
  | nil => intro b; rfl
  | cons c rest ih =>
    intro b
    by_cases hc : (c == '/') = true
    · cases b with
      | true =>
        rw [show collapseAux true (c :: rest) = collapseAux true rest from by
          simp [collapseAux, hc]]
        exact ih true
      | false =>
        rw [show collapseAux false (c :: rest) = '/' :: collapseAux true rest from by
          simp [collapseAux, hc]]
        cases ht : collapseAux true rest with
        | nil => rfl
        | cons y r =>
          have hy : (y == '/') = false := by
            apply collapseAux_true_head rest y
            rw [ht]
            rfl
          have hrest := ih true
          rw [ht] at hrest
          simp [hasPair, hy, hrest]
    · rw [show collapseAux b (c :: rest) = c :: collapseAux false rest from by
        cases b <;> simp [collapseAux, hc]]
      have hcf : (c == '/') = false := by simpa using hc
      cases ht : collapseAux false rest with
      | nil => rfl
      | cons y r =>
        have hrest := ih false
        rw [ht] at hrest
        simp [hasPair, hcf, hrest]

/-- Collapsing slash runs cannot create an adjacent dot pair: an adjacent
dot pair of the output was already present in the input. -/
theorem collapseAux_pair_dots (l : List Char) :
    ∀ b, hasPair '.' '.' (collapseAux b l) = true → hasPair '.' '.' l = true := by
  induction l with
  | nil =>
    intro b h
    rw [show collapseAux b [] = [] from by cases b <;> rfl] at h
    simp [hasPair] at h
  | cons c rest ih =>
    intro b h
    by_cases hc : (c == '/') = true
    · cases b with
      | true =>
        rw [show collapseAux true (c :: rest) = collapseAux true rest from by
          simp [collapseAux, hc]] at h
        exact hasPair_cons _ _ _ _ (ih true h)
      | false =>
        rw [show collapseAux false (c :: rest) = '/' :: collapseAux true rest from by
          simp [collapseAux, hc]] at h
        cases ht : collapseAux true rest with
        | nil =>
          rw [ht] at h
          simp [hasPair] at h
        | cons y r =>
          rw [ht] at h
          have h2 : hasPair '.' '.' (y :: r) = true := by
            simpa [hasPair] using h
          rw [← ht] at h2
          exact hasPair_cons _ _ _ _ (ih true h2)
    · rw [show collapseAux b (c :: rest) = c :: collapseAux false rest from by
        cases b <;> simp [collapseAux, hc]] at h
      cases ht : collapseAux false rest with
      | nil =>
        rw [ht] at h
        simp [hasPair] at h
      | cons y r =>
        rw [ht] at h
        simp only [hasPair, Bool.or_eq_true, Bool.and_eq_true] at h
        rcases h with ⟨h5, h6⟩ | h7
        · have hhead := collapseAux_false_head? rest
          rw [ht] at hhead
          cases rest with
          | nil => simp at hhead
          | cons z zs =>
            simp only [List.head?_cons, Option.some.injEq] at hhead
            subst hhead
            simp [hasPair, h5, h6]
        · have h7' : hasPair '.' '.' (collapseAux false rest) = true := by
            rw [ht]
            exact h7
          exact hasPair_cons _ _ _ _ (ih false h7')

/-- After collapsing, no two slashes are adjacent. -/
theorem collapseSlashes_no_double (l : List Char) :
    hasPair '/' '/' (collapseSlashes l) = false :=
  collapseAux_no_double l false

/-- Collapsing slash runs cannot create an adjacent dot pair. -/
theorem collapseSlashes_pair_dots (l : List Char)
    (h : hasPair '.' '.' (collapseSlashes l) = true) : hasPair '.' '.' l = true :=
  collapseAux_pair_dots l false h

/-- Every key produced by the sanitisation step has no dot pair, no slash
pair, and is non-empty. -/
theorem sanitizeDecodedKey_props (d k : String) (h : sanitizeDecodedKey d = some k) :
    hasPair '.' '.' k.toList = false ∧ hasPair '/' '/' k.toList = false ∧ k ≠ "" := by
  unfold sanitizeDecodedKey at h
  by_cases h1 : hasPair '.' '.' (stripLeadingSlash d.toList) = true
  · rw [if_pos h1] at h
    exact Option.noConfusion h
  · rw [if_neg h1] at h
    by_cases h2 : (collapseSlashes (stripLeadingSlash d.toList)).isEmpty = true
    · rw [if_pos h2] at h
      exact Option.noConfusion h
    · rw [if_neg h2] at h
      have hk := (Option.some.inj h).symm
      subst hk
      have hne : collapseSlashes (stripLeadingSlash d.toList) ≠ [] := by
        simpa [List.isEmpty_iff] using h2
      refine ⟨?_, ?_, ?_⟩
      · show hasPair '.' '.' (collapseSlashes (stripLeadingSlash d.toList)) = false
        cases hb : hasPair '.' '.' (collapseSlashes (stripLeadingSlash d.toList)) with
        | false => rfl
        | true => exact absurd (collapseSlashes_pair_dots _ hb) h1
      · exact collapseSlashes_no_double _
      · intro hkk
        apply hne
        have := congrArg String.toList hkk
        simpa using this

/-- The conditions under which the sanitisation step returns null. -/
theorem sanitizeDecodedKey_none (d : String)
    (h : hasPair '.' '.' (stripLeadingSlash d.toList) = true ∨
         (collapseSlashes (stripLeadingSlash d.toList)).isEmpty = true) :
    sanitizeDecodedKey d = none := by
  unfold sanitizeDecodedKey
  rcases h with h | h
  · rw [if_pos h]
  · by_cases h1 : hasPair '.' '.' (stripLeadingSlash d.toList) = true
    · rw [if_pos h1]
    · rw [if_neg h1, if_pos h]

/-- Every key produced by `keyFromUri` has no dot pair, no slash pair, and
is non-empty. -/
theorem keyFromUri_props (uri k : String)
    (h : ImageResizeEdge.keyFromUri uri = some (some k)) :
    hasPair '.' '.' k.toList = false ∧ hasPair '/' '/' k.toList = false ∧ k ≠ "" := by
  unfold ImageResizeEdge.keyFromUri at h
  cases hd : decodeURIComponent uri with
  | none =>
    rw [hd] at h
    exact Option.noConfusion h
  | some d =>
    rw [hd] at h
    simp only [Option.map_some'] at h
    exact sanitizeDecodedKey_props d k (Option.some.inj h)

@[simp] theorem statusOf_badRequest (m : String) :
    (ImageResizeEdge.badRequest m).statusOf = some "400" := rfl

@[simp] theorem statusOf_notFound (m : String) :
    (ImageResizeEdge.notFound m).statusOf = some "404" := rfl

@[simp] theorem statusOf_payloadTooLarge (m : String) :
    (ImageResizeEdge.payloadTooLarge m).statusOf = some "413" := rfl

@[simp] theorem statusOf_serverError (m : String) :
    (ImageResizeEdge.serverError m).statusOf = some "500" := rfl

@[simp] theorem statusOf_ok (b : List Nat) (ct : String) :
    (ImageResizeEdge.ok b ct).statusOf = some "200" := rfl

@[simp] theorem statusOf_passthrough (req : CFRequest) :
    (CFResponse.passthrough req).statusOf = none := rfl

@[simp] theorem bodyBytesOf_badRequest (m : String) :
    (ImageResizeEdge.badRequest m).bodyBytesOf = none := rfl

@[simp] theorem bodyBytesOf_notFound (m : String) :
    (ImageResizeEdge.notFound m).bodyBytesOf = none := rfl

@[simp] theorem bodyBytesOf_payloadTooLarge (m : String) :
    (ImageResizeEdge.payloadTooLarge m).bodyBytesOf = none := rfl

@[simp] theorem bodyBytesOf_serverError (m : String) :
    (ImageResizeEdge.serverError m).bodyBytesOf = none := rfl

@[simp] theorem bodyBytesOf_ok (b : List Nat) (ct : String) :
    (ImageResizeEdge.ok b ct).bodyBytesOf = some b := rfl

/-- The headers attached to every plain-text response, fully evaluated:
`30 * 24 * 60 * 60 = 2592000`. -/
theorem headers_text_eval :
    ImageResizeEdge.headers (some "text/plain; charset=utf-8") =
      [("cache-control", "public, max-age=2592000, immutable"),
       ("vary", "Accept,Accept-Encoding"),
       ("content-type", "text/plain; charset=utf-8")] := by
  decide

/-- Full inversion of `handle`: every possible run of the enhanced handler,
with the branch conditions that led to it. -/
theorem handle_cases (w : World) (req : CFRequest) (t : HandleTrace)
    (h : ImageResizeEdge.handle w req = some t) :
    (ImageResizeEdge.shouldProcess (ImageResizeEdge.parseParams req) = false ∧
      t = ⟨CFResponse.passthrough req, false, false⟩) ∨
    (ImageResizeEdge.shouldProcess (ImageResizeEdge.parseParams req) = true ∧
      ((ImageResizeEdge.keyFromUri req.uri = some none ∧
        t = ⟨ImageResizeEdge.badRequest "Invalid path.", false, false⟩) ∨
      (∃ k, ImageResizeEdge.keyFromUri req.uri = some (some k) ∧
        ((∃ e, w.getObject k = Except.error e ∧
            ((e.httpStatusCode = some 404 ∧
               t = ⟨ImageResizeEdge.notFound "Original image not found", true, false⟩) ∨
             (¬ e.httpStatusCode = some 404 ∧
               t = ⟨ImageResizeEdge.serverError "Image processing failed", true, false⟩))) ∨
         (∃ obj, w.getObject k = Except.ok obj ∧
            ((obj.body = none ∧
               t = ⟨ImageResizeEdge.notFound "Image not found", true, false⟩) ∨
             (∃ buf, obj.body = some buf ∧
                ((ImageResizeEdge.contentLengthTooBig obj = true ∧
                   t = ⟨ImageResizeEdge.payloadTooLarge "Original image too large.", true, false⟩) ∨
                 (ImageResizeEdge.contentLengthTooBig obj = false ∧
                   ((∃ msg, ImageResizeEdge.transform w buf (ImageResizeEdge.parseParams req) =
                        Except.error msg ∧
                      t = ⟨ImageResizeEdge.serverError "Image processing failed", true, true⟩) ∨
                    (∃ output,
                      ImageResizeEdge.transform w buf (ImageResizeEdge.parseParams req) =
                        Except.ok output ∧
                      ((output.length > ImageResizeEdge.MAX_BYTES ∧
                         t = ⟨ImageResizeEdge.payloadTooLarge "Image exceeds 1MB limit.", true, true⟩) ∨
                       (¬ output.length > ImageResizeEdge.MAX_BYTES ∧
                         ∃ ext, (ImageResizeEdge.parseParams req).extension = some ext ∧
                           t = ⟨ImageResizeEdge.ok output (contentTypeByExt ext), true, true⟩))))))))))))) := by
  unfold ImageResizeEdge.handle at h
  split at h
  case isTrue hsp =>
    refine Or.inr ⟨hsp, ?_⟩
    split at h
    next hk => exact Option.noConfusion h
    next hk => exact Or.inl ⟨hk, (Option.some.inj h).symm⟩
    next k hk =>
      refine Or.inr ⟨k, hk, ?_⟩
      split at h
      next e hget =>
        refine Or.inl ⟨e, hget, ?_⟩
        split at h
        next h404 => exact Or.inl ⟨h404, (Option.some.inj h).symm⟩
        next h404 => exact Or.inr ⟨h404, (Option.some.inj h).symm⟩
      next obj hget =>
        refine Or.inr ⟨obj, hget, ?_⟩
        split at h
        next hbody => exact Or.inl ⟨hbody, (Option.some.inj h).symm⟩
        next buf hbody =>
          refine Or.inr ⟨buf, hbody, ?_⟩
          split at h
          next hcl => exact Or.inl ⟨hcl, (Option.some.inj h).symm⟩
          next hcl =>
            have hclf : ImageResizeEdge.contentLengthTooBig obj = false := by
              simpa using hcl
            refine Or.inr ⟨hclf, ?_⟩
            split at h
            next msg htr => exact Or.inl ⟨msg, htr, (Option.some.inj h).symm⟩
            next output htr =>
              refine Or.inr ⟨output, htr, ?_⟩
              split at h
              next hlen => exact Or.inl ⟨hlen, (Option.some.inj h).symm⟩
              next hlen =>
                refine Or.inr ⟨hlen, ?_⟩
                split at h
                next ext hext => exact ⟨ext, hext, (Option.some.inj h).symm⟩
                next hext => exact Option.noConfusion h
  case isFalse hsp =>
    refine Or.inl ⟨by simpa using hsp, (Option.some.inj h).symm⟩

/-- C5: the PNG compression level is the pure function
quality ↦ clamp(round((100 − quality) / 11), 0, 9), with absent quality
mapping to level 6; quality 100 gives level 0, quality 1 gives level 9,
and the boundary qualities 1, 11, 50, 89, 100 give 9, 8, 5, 1, 0. -/
theorem C5_png_compression_level :
    (∀ q : Int, pngCompressionLevel (some q) = pngLevelSpec q) ∧
    pngCompressionLevel none = 6 ∧
    pngCompressionLevel (some 100) = 0 ∧
    pngCompressionLevel (some 1) = 9 ∧
    pngCompressionLevel (some 11) = 8 ∧
    pngCompressionLevel (some 50) = 5 ∧
    pngCompressionLevel (some 89) = 1 := by
  refine ⟨?_, rfl, by decide, by decide, by decide, by decide, by decide⟩
  intro q
  show max 0 (min 9 (jsRound (100 - q) 11)) = pngLevelSpec q
  unfold pngLevelSpec clampInt
  generalize jsRound (100 - q) 11 = r
  split_ifs <;> omega

/-- C6: `toInt` returns the parsed base-10 integer clamped into the given
range; `none`, the empty string, and a string with no parseable integer
yield absence; under a positive lower bound the result is never zero. -/
theorem C6_toInt_clamps :
    (∀ s m lo hi, parseIntBase10 s = some m →
        toInt (some s) lo hi = some (min (max m lo) hi)) ∧
    (∀ lo hi, toInt none lo hi = none) ∧
    (∀ lo hi, toInt (some "") lo hi = none) ∧
    (∀ s lo hi, parseIntBase10 s = none → toInt (some s) lo hi = none) ∧
    (∀ s lo hi n, lo ≤ hi → toInt (some s) lo hi = some n → lo ≤ n ∧ n ≤ hi) ∧
    (∀ s hi, (1 : Int) ≤ hi → toInt (some s) 1 hi ≠ some 0) := by
  have hmain : ∀ s m lo hi, parseIntBase10 s = some m →
      toInt (some s) lo hi = some (min (max m lo) hi) := by
    intro s m lo hi hp
    show (if s = "" then none else
        match parseIntBase10 s with
        | none => none
        | some n => some (min (max n lo) hi)) = some (min (max m lo) hi)
    by_cases hs : s = ""
    · subst hs
      have hnone : parseIntBase10 "" = none := rfl
      rw [hnone] at hp
      exact Option.noConfusion hp
    · rw [if_neg hs, hp]
  have hbounds : ∀ s lo hi n, lo ≤ hi → toInt (some s) lo hi = some n → lo ≤ n ∧ n ≤ hi := by
    intro s lo hi n hlohi h
    change (if s = "" then none else
        match parseIntBase10 s with
        | none => none
        | some n => some (min (max n lo) hi)) = some n at h
    by_cases hs : s = ""
    · rw [if_pos hs] at h
      exact Option.noConfusion h
    · rw [if_neg hs] at h
      cases hp : parseIntBase10 s with
      | none =>
        rw [hp] at h
        exact Option.noConfusion h
      | some m =>
        rw [hp] at h
        have := Option.some.inj h
        subst this
        constructor
        · exact le_min (le_max_right m lo) hlohi
        · exact min_le_right _ _
  refine ⟨hmain, fun lo hi => rfl, fun lo hi => rfl, ?_, hbounds, ?_⟩
  · intro s lo hi hp
    show (if s = "" then none else
        match parseIntBase10 s with
        | none => none
        | some n => some (min (max n lo) hi)) = none
    by_cases hs : s = ""
    · rw [if_pos hs]
    · rw [if_neg hs, hp]
  · intro s hi hhi hcon
    have := (hbounds s 1 hi 0 hhi hcon).1
    omega

/-- C6 witness: a concrete parse, clamped identically. -/
theorem C6_toInt_clamps_witness : toInt (some "42") 1 8192 = some 42 := by
  have h := C6_toInt_clamps.1 "42" 42 1 8192 rfl
  have heval : (min (max (42 : Int) 1) 8192) = 42 := by decide
  rw [heval] at h
  exact h

/-- C10: `toInt` accepts strings whose leading characters form a base-10
integer, returning the clamped numeric prefix of "200px" and "12abc", and
clamps "0" up to the minimum 1; such query values therefore count as
present parameters and trigger transformation. -/
theorem C10_toInt_leading_digits :
    toInt (some "200px") 1 8192 = some 200 ∧
    toInt (some "12abc") 1 8192 = some 12 ∧
    toInt (some "0") 1 8192 = some 1 ∧
    ImageResizeEdge.shouldProcess (ImageResizeEdge.parseParams ⟨"/a.png", [("w", "0")]⟩) = true ∧
    ImageResizeEdge.shouldProcess
      (ImageResizeEdge.parseParams ⟨"/a.png", [("w", "200px")]⟩) = true := by
  refine ⟨by decide, by decide, by decide, by decide, by decide⟩

/-- C4: with none of the w, h, q query parameters present the enhanced
handler returns the original request unchanged, regardless of the URI,
performing neither a fetch nor a transformation. -/
theorem C4_passthrough (w : World) (req : CFRequest)
    (hw : queryGet req.query "w" = none)
    (hh : queryGet req.query "h" = none)
    (hq : queryGet req.query "q" = none) :
    ImageResizeEdge.handle w req = some ⟨CFResponse.passthrough req, false, false⟩ := by
  have hsp : ImageResizeEdge.shouldProcess (ImageResizeEdge.parseParams req) = false := by
    unfold ImageResizeEdge.shouldProcess ImageResizeEdge.parseParams
    rw [hw, hh, hq]
    cases hext : extensionFromUri req.uri with
    | none => rfl
    | some e => simp [toInt, truthyInt]
  unfold ImageResizeEdge.handle
  rw [hsp]
  rfl

/-- C4 witness: a concrete parameterless request passes through. -/
theorem C4_passthrough_witness :
    ImageResizeEdge.handle worldDummy ⟨"/photo.png", []⟩ =
      some ⟨CFResponse.passthrough ⟨"/photo.png", []⟩, false, false⟩ :=
  C4_passthrough worldDummy ⟨"/photo.png", []⟩ rfl rfl rfl

/-- C7: a URI whose extension is outside the whitelist never reaches the
storage fetch: the plain variant answers 400 and the enhanced variant
passes the request through, both with the fetch stage untouched. -/
theorem C7_no_fetch_without_extension (w : World) (req : CFRequest)
    (hext : extensionFromUri req.uri = none) :
    V1.handler w req =
      ⟨CFResponse.http "400" "Bad Request" [("content-type", "text/plain; charset=utf-8")]
          (CFBody.text "Unsupported or missing image extension."), false, false⟩ ∧
    ImageResizeEdge.handle w req = some ⟨CFResponse.passthrough req, false, false⟩ := by
  constructor
  · unfold V1.handler
    by_cases hu : req.uri = ""
    · rw [if_pos hu]
      rfl
    · rw [if_neg hu, hext]
  · have hsp : ImageResizeEdge.shouldProcess (ImageResizeEdge.parseParams req) = false := by
      unfold ImageResizeEdge.shouldProcess ImageResizeEdge.parseParams
      rw [hext]
    unfold ImageResizeEdge.handle
    rw [hsp]
    rfl

/-- C7 witness: a .bmp request is rejected by the plain variant and passed
through by the enhanced one, with no fetch in either. -/
theorem C7_no_fetch_without_extension_witness :
    V1.handler worldDummy ⟨"/file.bmp", [("w", "100")]⟩ =
      ⟨CFResponse.http "400" "Bad Request" [("content-type", "text/plain; charset=utf-8")]
          (CFBody.text "Unsupported or missing image extension."), false, false⟩ ∧
    ImageResizeEdge.handle worldDummy ⟨"/file.bmp", [("w", "100")]⟩ =
      some ⟨CFResponse.passthrough ⟨"/file.bmp", [("w", "100")]⟩, false, false⟩ :=
  C7_no_fetch_without_extension worldDummy ⟨"/file.bmp", [("w", "100")]⟩ rfl

/-- C1: the format-integrity check compares the detected format string to
the requested extension with strict equality, so a jpeg-encoded original
(whose detected format string is "jpeg") requested through a .jpg URI IS
reported as a mismatch, which the catch clause then folds into the generic
500 response — the code does not treat jpg and jpeg as equivalent. -/
theorem C1_jpg_uri_jpeg_original_is_mismatch :
    ImageResizeEdge.transform worldJpegOriginal [255, 216]
        (ImageResizeEdge.parseParams ⟨"/photo.jpg", [("w", "200")]⟩) =
      Except.error "Mismatched image format" ∧
    ImageResizeEdge.handle worldJpegOriginal ⟨"/photo.jpg", [("w", "200")]⟩ =
      some ⟨ImageResizeEdge.serverError "Image processing failed", true, true⟩ := by
  exact ⟨rfl, by decide⟩

/-- C2 counterexample: the URI "//a.png" reaches the fetch stage (the
fetched flag of the run is set), yet its computed object key "/a.png"
begins with a slash — only the first of the two leading slashes is
stripped, and the later collapse step keeps the remaining leading one. -/
theorem C2_key_counterexample :
    ImageResizeEdge.keyFromUri "//a.png" = some (some "/a.png") ∧
    "/a.png".toList.head? = some '/' ∧
    ImageResizeEdge.handle worldErr404 ⟨"//a.png", [("w", "10")]⟩ =
      some ⟨ImageResizeEdge.notFound "Original image not found", true, false⟩ := by
  exact ⟨by decide, by decide, by decide⟩

/-- C2 amended: every object key computed by keyFromUri contains no `..`
pair and no doubled separator and is non-empty, but it can begin with a
slash (when the URI begins with two or more slashes); and whenever
transform parameters are present, a URI whose decoded form has a `..` pair
after the leading-slash strip, or collapses to the empty key, is answered
with the 400 bad-request response before any fetch. -/
theorem C2_key_invariants :
    (∀ uri k, ImageResizeEdge.keyFromUri uri = some (some k) →
        hasPair '.' '.' k.toList = false ∧ hasPair '/' '/' k.toList = false ∧ k ≠ "") ∧
    (∀ (w : World) (req : CFRequest) (d : String),
        ImageResizeEdge.shouldProcess (ImageResizeEdge.parseParams req) = true →
        decodeURIComponent req.uri = some d →
        (hasPair '.' '.' (stripLeadingSlash d.toList) = true ∨
          (collapseSlashes (stripLeadingSlash d.toList)).isEmpty = true) →
        ImageResizeEdge.handle w req =
          some ⟨ImageResizeEdge.badRequest "Invalid path.", false, false⟩) := by
  constructor
  · exact keyFromUri_props
  · intro w req d hsp hd hcond
    have hk : ImageResizeEdge.keyFromUri req.uri = some none := by
      unfold ImageResizeEdge.keyFromUri
      rw [hd, Option.map_some', sanitizeDecodedKey_none d hcond]
    unfold ImageResizeEdge.handle
    rw [hsp, hk]
    rfl

/-- C2 witness: the invariants on a concrete key, and the 400 rejection of
a concrete traversal URI before any fetch. -/
theorem C2_key_invariants_witness :
    (hasPair '.' '.' "x.png".toList = false ∧ hasPair '/' '/' "x.png".toList = false ∧
      "x.png" ≠ "") ∧
    ImageResizeEdge.handle worldDummy ⟨"/../evil.png", [("w", "1")]⟩ =
      some ⟨ImageResizeEdge.badRequest "Invalid path.", false, false⟩ :=
  ⟨C2_key_invariants.1 "/x.png" "x.png" (by decide),
   C2_key_invariants.2 worldDummy ⟨"/../evil.png", [("w", "1")]⟩ "/../evil.png"
     (by decide) (by decide) (Or.inl (by decide))⟩

/-- C8: a fetch error carrying HTTP status 404 yields the 404 response; a
fetch error without that status, and a transform failure, each yield the
500 response with the generic body. -/
theorem C8_error_status_mapping :
    (∀ (w : World) (req : CFRequest) (k : String) (e : S3Error),
        ImageResizeEdge.shouldProcess (ImageResizeEdge.parseParams req) = true →
        ImageResizeEdge.keyFromUri req.uri = some (some k) →
        w.getObject k = Except.error e →
        e.httpStatusCode = some 404 →
        ImageResizeEdge.handle w req =
          some ⟨ImageResizeEdge.notFound "Original image not found", true, false⟩) ∧
    (∀ (w : World) (req : CFRequest) (k : String) (e : S3Error),
        ImageResizeEdge.shouldProcess (ImageResizeEdge.parseParams req) = true →
        ImageResizeEdge.keyFromUri req.uri = some (some k) →
        w.getObject k = Except.error e →
        ¬ e.httpStatusCode = some 404 →
        ImageResizeEdge.handle w req =
          some ⟨ImageResizeEdge.serverError "Image processing failed", true, false⟩) ∧
    (∀ (w : World) (req : CFRequest) (k : String) (obj : S3Object) (buf : List Nat) (msg : String),
        ImageResizeEdge.shouldProcess (ImageResizeEdge.parseParams req) = true →
        ImageResizeEdge.keyFromUri req.uri = some (some k) →
        w.getObject k = Except.ok obj →
        obj.body = some buf →
        ImageResizeEdge.contentLengthTooBig obj = false →
        ImageResizeEdge.transform w buf (ImageResizeEdge.parseParams req) = Except.error msg →
        ImageResizeEdge.handle w req =
          some ⟨ImageResizeEdge.serverError "Image processing failed", true, true⟩) := by
  refine ⟨?_, ?_, ?_⟩
  · intro w req k e hsp hk hget h404
    unfold ImageResizeEdge.handle
    simp [hsp, hk, hget, h404]
  · intro w req k e hsp hk hget h404
    unfold ImageResizeEdge.handle
    simp [hsp, hk, hget, h404]
  · intro w req k obj buf msg hsp hk hget hbody hcl htr
    unfold ImageResizeEdge.handle
    simp [hsp, hk, hget, hbody, hcl, htr]

/-- C8 witness: the three mappings at concrete worlds — a 404-status fetch
error, a 503-status fetch error, and a format-mismatch transform crash. -/
theorem C8_error_status_mapping_witness :
    ImageResizeEdge.handle worldErr404 ⟨"/p.png", [("w", "1")]⟩ =
      some ⟨ImageResizeEdge.notFound "Original image not found", true, false⟩ ∧
    ImageResizeEdge.handle worldErr503 ⟨"/p.png", [("w", "1")]⟩ =
      some ⟨ImageResizeEdge.serverError "Image processing failed", true, false⟩ ∧
    ImageResizeEdge.handle worldJpegOriginal ⟨"/p.png", [("w", "1")]⟩ =
      some ⟨ImageResizeEdge.serverError "Image processing failed", true, true⟩ :=
  ⟨C8_error_status_mapping.1 worldErr404 ⟨"/p.png", [("w", "1")]⟩ "p.png" ⟨some 404⟩
      (by decide) (by decide) rfl rfl,
   C8_error_status_mapping.2.1 worldErr503 ⟨"/p.png", [("w", "1")]⟩ "p.png" ⟨some 503⟩
      (by decide) (by decide) rfl (by decide),
   C8_error_status_mapping.2.2 worldJpegOriginal ⟨"/p.png", [("w", "1")]⟩ "p.png"
      ⟨some [255, 216], some 1000⟩ [255, 216] "Mismatched image format"
      (by decide) (by decide) rfl rfl (by decide) rfl⟩

/-- C3: assuming the storage collaborator attaches a body to every
successful fetch (its interface contract), a run of the enhanced handler
produces status 413 exactly when the fetched object reports a content
length above 50,000,000 bytes or the transform output exceeds 1,000,000
bytes; and a 200 response never carries a body above 1,000,000 bytes. -/
theorem C3_payload_too_large (w : World) (req : CFRequest) (t : HandleTrace)
    (hwf : ∀ k obj, w.getObject k = Except.ok obj → obj.body ≠ none)
    (h : ImageResizeEdge.handle w req = some t) :
    (t.response.statusOf = some "413" ↔
      ∃ k obj, ImageResizeEdge.shouldProcess (ImageResizeEdge.parseParams req) = true ∧
        ImageResizeEdge.keyFromUri req.uri = some (some k) ∧
        w.getObject k = Except.ok obj ∧
        (ImageResizeEdge.contentLengthTooBig obj = true ∨
          (ImageResizeEdge.contentLengthTooBig obj = false ∧
            ∃ buf out, obj.body = some buf ∧
              ImageResizeEdge.transform w buf (ImageResizeEdge.parseParams req) =
                Except.ok out ∧
              out.length > ImageResizeEdge.MAX_BYTES))) ∧
    (∀ b, t.response.statusOf = some "200" → t.response.bodyBytesOf = some b →
      b.length ≤ ImageResizeEdge.MAX_BYTES) := by
  rcases handle_cases w req t h with ⟨hsp, ht⟩ |
    ⟨hsp, (⟨hk0, ht⟩ | ⟨k, hk, (⟨e, hget, (⟨h404, ht⟩ | ⟨hn404, ht⟩)⟩ |
      ⟨obj, hget, (⟨hbody, ht⟩ | ⟨buf, hbody, (⟨hcl, ht⟩ |
        ⟨hclf, (⟨msg, htr, ht⟩ | ⟨output, htr, (⟨hlen, ht⟩ | ⟨hlen, ext, hext, ht⟩)⟩)⟩)⟩)⟩)⟩)⟩
  · subst ht
    refine ⟨iff_of_false (by simp) ?_, ?_⟩
    · rintro ⟨k, obj, hsp', -, -, -⟩
      rw [hsp] at hsp'
      exact Bool.noConfusion hsp'
    · intro b h200 hbb
      simp at h200
  · subst ht
    refine ⟨iff_of_false (by simp) ?_, ?_⟩
    · rintro ⟨k, obj, -, hk', -, -⟩
      rw [hk0] at hk'
      simp at hk'
    · intro b h200 hbb
      simp at h200
  · subst ht
    refine ⟨iff_of_false (by simp) ?_, ?_⟩
    · rintro ⟨k', obj, -, hk', hget', -⟩
      rw [hk] at hk'
      simp only [Option.some.injEq] at hk'
      subst hk'
      rw [hget] at hget'
      exact Except.noConfusion hget'
    · intro b h200 hbb
      simp at h200
  · subst ht
    refine ⟨iff_of_false (by simp) ?_, ?_⟩
    · rintro ⟨k', obj, -, hk', hget', -⟩
      rw [hk] at hk'
      simp only [Option.some.injEq] at hk'
      subst hk'
      rw [hget] at hget'
      exact Except.noConfusion hget'
    · intro b h200 hbb
      simp at h200
  · exact (hwf k obj hget hbody).elim
  · subst ht
    refine ⟨iff_of_true (by simp) ⟨k, obj, hsp, hk, hget, Or.inl hcl⟩, ?_⟩
    intro b h200 hbb
    simp at h200
  · subst ht
    refine ⟨iff_of_false (by simp) ?_, ?_⟩
    · rintro ⟨k', obj', -, hk', hget', hbig⟩
      rw [hk] at hk'
      simp only [Option.some.injEq] at hk'
      subst hk'
      rw [hget] at hget'
      simp only [Except.ok.injEq] at hget'
      subst hget'
      rcases hbig with hclt | ⟨-, buf', out, hbody', htr', -⟩
      · rw [hclf] at hclt
        exact Bool.noConfusion hclt
      · rw [hbody] at hbody'
        simp only [Option.some.injEq] at hbody'
        subst hbody'
        rw [htr] at htr'
        exact Except.noConfusion htr'
    · intro b h200 hbb
      simp at h200
  · subst ht
    refine ⟨iff_of_true (by simp)
      ⟨k, obj, hsp, hk, hget, Or.inr ⟨hclf, buf, output, hbody, htr, hlen⟩⟩, ?_⟩
    intro b h200 hbb
    simp at h200
  · subst ht
    constructor
    · refine iff_of_false (by simp) ?_
      rintro ⟨k', obj', -, hk', hget', hbig⟩
      rw [hk] at hk'
      simp only [Option.some.injEq] at hk'
      subst hk'
      rw [hget] at hget'
      simp only [Except.ok.injEq] at hget'
      subst hget'
      rcases hbig with hclt | ⟨-, buf', out, hbody', htr', hlen'⟩
      · rw [hclf] at hclt
        exact Bool.noConfusion hclt
      · rw [hbody] at hbody'
        simp only [Option.some.injEq] at hbody'
        subst hbody'
        rw [htr] at htr'
        simp only [Except.ok.injEq] at htr'
        subst htr'
        exact absurd hlen' hlen
    · intro b h200 hbb
      simp only [bodyBytesOf_ok, Option.some.injEq] at hbb
      subst hbb
      exact Nat.le_of_not_lt hlen

/-- C3 witness: the biconditional instantiated at a request whose object
reports a 60,000,000-byte content length. -/
theorem C3_payload_too_large_witness :
    (((⟨ImageResizeEdge.payloadTooLarge "Original image too large.", true,
        false⟩ : HandleTrace).response.statusOf = some "413" ↔
      ∃ k obj, ImageResizeEdge.shouldProcess
          (ImageResizeEdge.parseParams ⟨"/a.png", [("w", "5")]⟩) = true ∧
        ImageResizeEdge.keyFromUri (CFRequest.mk "/a.png" [("w", "5")]).uri = some (some k) ∧
        worldBigCL.getObject k = Except.ok obj ∧
        (ImageResizeEdge.contentLengthTooBig obj = true ∨
          (ImageResizeEdge.contentLengthTooBig obj = false ∧
            ∃ buf out, obj.body = some buf ∧
              ImageResizeEdge.transform worldBigCL buf
                  (ImageResizeEdge.parseParams ⟨"/a.png", [("w", "5")]⟩) =
                Except.ok out ∧
              out.length > ImageResizeEdge.MAX_BYTES))) ∧
    (∀ b, (⟨ImageResizeEdge.payloadTooLarge "Original image too large.", true,
        false⟩ : HandleTrace).response.statusOf = some "200" →
      (⟨ImageResizeEdge.payloadTooLarge "Original image too large.", true,
        false⟩ : HandleTrace).response.bodyBytesOf = some b →
      b.length ≤ ImageResizeEdge.MAX_BYTES)) :=
  C3_payload_too_large worldBigCL ⟨"/a.png", [("w", "5")]⟩
    ⟨ImageResizeEdge.payloadTooLarge "Original image too large.", true, false⟩
    (by
      intro k obj hobj
      simp only [worldBigCL] at hobj
      injection hobj with h2
      subst h2
      simp)
    (by decide)

/-- C9: in the enhanced handler every HTTP error response — status 400,
404, 413 or 500 — carries exactly the cache-control (30-day, immutable),
vary and text/plain content-type headers, the same cacheability as a
success. -/
theorem C9_error_responses_cacheable (w : World) (req : CFRequest) (t : HandleTrace)
    (h : ImageResizeEdge.handle w req = some t)
    (s sd : String) (hs : List (String × String)) (b : CFBody)
    (hr : t.response = CFResponse.http s sd hs b)
    (hst : s = "400" ∨ s = "404" ∨ s = "413" ∨ s = "500") :
    hs = [("cache-control", "public, max-age=2592000, immutable"),
          ("vary", "Accept,Accept-Encoding"),
          ("content-type", "text/plain; charset=utf-8")] := by
  rcases handle_cases w req t h with ⟨hsp, ht⟩ |
    ⟨hsp, (⟨hk0, ht⟩ | ⟨k, hk, (⟨e, hget, (⟨h404, ht⟩ | ⟨hn404, ht⟩)⟩ |
      ⟨obj, hget, (⟨hbody, ht⟩ | ⟨buf, hbody, (⟨hcl, ht⟩ |
        ⟨hclf, (⟨msg, htr, ht⟩ | ⟨output, htr, (⟨hlen, ht⟩ | ⟨hlen, ext, hext, ht⟩)⟩)⟩)⟩)⟩)⟩)⟩
  · subst ht
    simp at hr
  · subst ht
    simp only [ImageResizeEdge.badRequest, CFResponse.http.injEq] at hr
    rw [← hr.2.2.1]
    exact headers_text_eval
  · subst ht
    simp only [ImageResizeEdge.notFound, CFResponse.http.injEq] at hr
    rw [← hr.2.2.1]
    exact headers_text_eval
  · subst ht
    simp only [ImageResizeEdge.serverError, CFResponse.http.injEq] at hr
    rw [← hr.2.2.1]
    exact headers_text_eval
  · subst ht
    simp only [ImageResizeEdge.notFound, CFResponse.http.injEq] at hr
    rw [← hr.2.2.1]
    exact headers_text_eval
  · subst ht
    simp only [ImageResizeEdge.payloadTooLarge, CFResponse.http.injEq] at hr
    rw [← hr.2.2.1]
    exact headers_text_eval
  · subst ht
    simp only [ImageResizeEdge.serverError, CFResponse.http.injEq] at hr
    rw [← hr.2.2.1]
    exact headers_text_eval
  · subst ht
    simp only [ImageResizeEdge.payloadTooLarge, CFResponse.http.injEq] at hr
    rw [← hr.2.2.1]
    exact headers_text_eval
  · subst ht
    simp only [ImageResizeEdge.ok, CFResponse.http.injEq] at hr
    obtain ⟨hs200, -⟩ := hr
    subst hs200
    rcases hst with h2 | h2 | h2 | h2 <;> exact absurd h2 (by decide)

/-- C9 witness: the header list of a concrete 400 response. -/
theorem C9_error_responses_cacheable_witness :
    ImageResizeEdge.headers (some "text/plain; charset=utf-8") =
      [("cache-control", "public, max-age=2592000, immutable"),
       ("vary", "Accept,Accept-Encoding"),
       ("content-type", "text/plain; charset=utf-8")] :=
  C9_error_responses_cacheable worldDummy ⟨"/../evil.png", [("h", "2")]⟩
    ⟨ImageResizeEdge.badRequest "Invalid path.", false, false⟩ (by decide)
    "400" "Bad Request" (ImageResizeEdge.headers (some "text/plain; charset=utf-8"))
    (CFBody.text "Invalid path.") rfl (Or.inl rfl)

end ImageResize
